import Mathlib

/-!
Verification of the Supertonic TTS daemon (`scripts/supertonic_daemon.py`).

The daemon is a single-threaded loop over a length-prefixed binary protocol on
stdin/stdout.  This file gives a shallow embedding of one iteration of that
loop as a pure function `step` over an explicit session state, together with
the byte-level codecs the loop uses (little-endian length prefixes, strict
UTF-8 payload decoding, float→int16 PCM serialization).

Modelling conventions:
- Python `str` values are sequences of Unicode codepoints, embedded as
  `List ℕ` (`PyStr`); byte strings are also `List ℕ` with entries < 256.
- Python floats are embedded as `ℚ`; the numeric claims under scrutiny only
  concern exact values, signs and ranges, on which `ℚ` is faithful.
- The external synthesis engine (the `supertonic` package, a black-box
  collaborator of the daemon) is a record of functions; a raised exception in
  `get_voice_style` or `synthesize` is modelled as an `Option` returning
  `none`.
- A raised exception while the error handler writes its empty response frame
  to stdout is modelled by the flag `errWriteFails` of `step`.
-/

namespace Supertonic

/-- Python strings as lists of Unicode codepoints; byte strings as lists of
byte values. -/
abbrev PyStr := List ℕ

/-- Codepoints of `"PING"`. -/
def pingText : PyStr := [80, 73, 78, 71]

/-- Codepoints of `"QUIT"`. -/
def quitText : PyStr := [81, 85, 73, 84]

/-- Codepoints of `"VOICE:"`. -/
def voiceCmd : PyStr := [86, 79, 73, 67, 69, 58]

/-- Codepoints of `"LANG:"`. -/
def langCmd : PyStr := [76, 65, 78, 71, 58]

/-- Codepoints of `"SPEED:"`. -/
def speedCmd : PyStr := [83, 80, 69, 69, 68, 58]

/-- Bytes of `b"PONG\n"`, the raw non-framed reply to `PING`. -/
def pongBytes : List ℕ := [80, 79, 78, 71, 10]

/-- Whitespace codepoints stripped by Python `str.strip()`: ASCII whitespace
(space, `\t`, `\n`, `\v`, `\f`, `\r`), the separator controls `\x1c`–`\x1f`,
NEL and NBSP.  (Exotic Unicode space codepoints above U+00A0 are not modelled;
no claim depends on them.) -/
def isPySpace (c : ℕ) : Bool :=
  decide (c = 32 ∨ (9 ≤ c ∧ c ≤ 13) ∨ (28 ≤ c ∧ c ≤ 31) ∨ c = 133 ∨ c = 160)

/-- Python `str.strip()`: remove leading and trailing whitespace. -/
def pyStrip (s : PyStr) : PyStr :=
  ((s.dropWhile isPySpace).reverse.dropWhile isPySpace).reverse

/-- Value of a digit string, most significant first. -/
def digitsVal (l : PyStr) : ℕ := l.foldl (fun a c => a * 10 + (c - 48)) 0

/-- All codepoints are ASCII digits. -/
def allDigits (l : PyStr) : Bool := l.all (fun c => decide (48 ≤ c ∧ c ≤ 57))

/-- Unsigned part of Python `float(...)` parsing: digits with an optional
single decimal point, at least one digit in total. -/
def pyFloatCore (r : PyStr) (sg : ℚ) : Option ℚ :=
  let ip := r.takeWhile (fun c => decide (c ≠ 46))
  let fr := r.dropWhile (fun c => decide (c ≠ 46))
  match fr with
  | [] => if allDigits ip = true ∧ ip ≠ [] then some (sg * (digitsVal ip : ℚ)) else none
  | _ :: fp =>
    if allDigits ip = true ∧ allDigits fp = true ∧ (ip ≠ [] ∨ fp ≠ []) then
      some (sg * ((digitsVal ip : ℚ) + (digitsVal fp : ℚ) / (10 : ℚ) ^ fp.length))
    else none

/-- Python builtin `float(s)` on an already-stripped string, restricted to the
plain decimal forms `[+-]digits[.digits]` (the only forms the daemon's
protocol documentation uses; exponent/`inf`/`nan` spellings are not
modelled).  `none` models a raised `ValueError`. -/
def pyFloat (s : PyStr) : Option ℚ :=
  match s with
  | 43 :: t => pyFloatCore t 1
  | 45 :: t => pyFloatCore t (-1)
  | _ => pyFloatCore s 1

/-- Strict UTF-8 decoding state machine, processing one byte per call.
`need` is the number of continuation bytes still expected, `lo`/`hi` bound the
next continuation byte (this encodes the overlong-, surrogate- and
range-exclusions of RFC 3629, which Python's strict `bytes.decode('utf-8')`
enforces), and `acc` is the partial codepoint. -/
def utf8Aux : List ℕ → ℕ → ℕ → ℕ → ℕ → Option (List ℕ)
  | [], need, _, _, _ => if need = 0 then some [] else none
  | b :: rest, 0, _, _, _ =>
    if b < 128 then (utf8Aux rest 0 0 0 0).map (b :: ·)
    else if 194 ≤ b ∧ b ≤ 223 then utf8Aux rest 1 128 191 (b - 192)
    else if 224 ≤ b ∧ b ≤ 239 then
      utf8Aux rest 2 (if b = 224 then 160 else 128) (if b = 237 then 159 else 191) (b - 224)
    else if 240 ≤ b ∧ b ≤ 244 then
      utf8Aux rest 3 (if b = 240 then 144 else 128) (if b = 244 then 143 else 191) (b - 240)
    else none
  | b :: rest, 1, lo, hi, acc =>
    if lo ≤ b ∧ b ≤ hi then (utf8Aux rest 0 0 0 0).map ((acc * 64 + (b - 128)) :: ·)
    else none
  | b :: rest, need + 2, lo, hi, acc =>
    if lo ≤ b ∧ b ≤ hi then utf8Aux rest (need + 1) 128 191 (acc * 64 + (b - 128))
    else none

/-- Python `payload.decode('utf-8')` (strict); `none` models a raised
`UnicodeDecodeError`. -/
def utf8Decode (p : List ℕ) : Option PyStr := utf8Aux p 0 0 0 0

/-- Truncation of a rational toward zero, the rounding C (and hence numpy's
`astype`) applies when converting a float to an integer type. -/
def ratTrunc (x : ℚ) : ℤ := if 0 ≤ x then ⌊x⌋ else ⌈x⌉

/-- Wrap an integer into the 16-bit signed range, the overflow behaviour of
numpy's float→`int16` conversion. -/
def wrap16 (n : ℤ) : ℤ := (n + 32768) % 65536 - 32768

/-- One sample of `(samples * 32767).astype(np.int16)`: scale by 32767,
truncate toward zero, wrap into int16 (no clamping). -/
def toInt16 (s : ℚ) : ℤ := wrap16 (ratTrunc (s * 32767))

/-- Little-endian byte serialization of one int16 sample, as in
`pcm16.tobytes()`. -/
def int16le (n : ℤ) : List ℕ := [(n % 65536).toNat % 256, (n % 65536).toNat / 256]

/-- `pcm_bytes`: the float waveform serialized as consecutive little-endian
int16 samples (`(samples * 32767).astype(np.int16).tobytes()`). -/
def pcmBytes : List ℚ → List ℕ
  | [] => []
  | s :: rest => int16le (toInt16 s) ++ pcmBytes rest

/-- `struct.pack('<I', n)`: 4-byte little-endian encoding of a 32-bit
unsigned value. -/
def u32le (n : ℕ) : List ℕ := [n % 256, n / 256 % 256, n / 65536 % 256, n / 16777216 % 256]

/-- A response frame as written by the daemon: 4-byte little-endian length
prefix followed by the payload. -/
def encodeFrame (p : List ℕ) : List ℕ := u32le p.length ++ p

/-- The empty acknowledgment/error frame `struct.pack('<I', 0)`. -/
def zeroFrame : List ℕ := u32le 0

/-- Events on the diagnostic channel (stderr), one constructor per
`sys.stderr.write` site inside the request loop. -/
inductive LogEvent
  | oversizeMsg (n : ℕ)
  | errMsg
  | voiceChangedMsg (v : PyStr)
  | voiceErrMsg
  | langChangedMsg (l : PyStr)
  | speedChangedMsg (q : ℚ)
  | speedErrMsg
  | synthMsg
  | quitMsg
deriving DecidableEq

/-- The daemon's mutable session variables (`voice_name`, `lang`, `speed`,
the cached voice `style`, and `total_steps`), over an abstract style type
`σ`. -/
structure DaemonState (σ : Type) where
  voice_name : PyStr
  lang : PyStr
  speed : ℚ
  style : σ
  total_steps : ℕ
deriving DecidableEq

/-- The external synthesis engine (`supertonic.TTS`): voice-style resolution
and synthesis.  `none` models a raised exception. -/
structure Engine (σ : Type) where
  getVoiceStyle : PyStr → Option σ
  synthesize : PyStr → σ → PyStr → ℕ → ℚ → Option (List ℚ × ℚ)

/-- Everything one loop iteration produces: the updated session state, the
bytes written to stdout, the diagnostic events written to stderr, and whether
the loop continues (`false` = `break`). -/
structure StepResult (σ : Type) where
  state : DaemonState σ
  out : List ℕ
  logs : List LogEvent
  cont : Bool
deriving DecidableEq

/-- Input to one loop iteration: either the 4-byte header read returned fewer
than 4 bytes (`eofInput`), or a frame with its declared length and the bytes
available on the stream after the header. -/
inductive Inp
  | eofInput
  | frame (declLen : ℕ) (payload : PyStr)
deriving DecidableEq

/-- The `except Exception` handler of the loop body: log the error, then try
to write an empty response frame; if that write itself raises
(`errWriteFails`), break out of the loop. -/
def errResult (errWriteFails : Bool) (st : DaemonState σ) (logs : List LogEvent) :
    StepResult σ :=
  if errWriteFails then ⟨st, [], logs, false⟩ else ⟨st, zeroFrame, logs, true⟩

/-- Dispatch on the decoded request text: the control commands `PING`,
`QUIT`, `VOICE:`, `LANG:`, `SPEED:` in source order, otherwise a synthesis
request.  `struct.pack('<I', len)` raises when the PCM byte count does not
fit in 32 bits, which lands in the generic error handler. -/
def handleText (eng : Engine σ) (errWriteFails : Bool) (st : DaemonState σ)
    (text : PyStr) : StepResult σ :=
  if text = pingText then ⟨st, pongBytes, [], true⟩
  else if text = quitText then ⟨st, [], [.quitMsg], false⟩
  else if voiceCmd.isPrefixOf text then
    match eng.getVoiceStyle (pyStrip (text.drop 6)) with
    | some sty =>
      ⟨{ st with voice_name := pyStrip (text.drop 6), style := sty }, zeroFrame,
        [.voiceChangedMsg (pyStrip (text.drop 6))], true⟩
    | none => ⟨st, zeroFrame, [.voiceErrMsg], true⟩
  else if langCmd.isPrefixOf text then
    ⟨{ st with lang := pyStrip (text.drop 5) }, zeroFrame,
      [.langChangedMsg (pyStrip (text.drop 5))], true⟩
  else if speedCmd.isPrefixOf text then
    match pyFloat (pyStrip (text.drop 6)) with
    | some f => ⟨{ st with speed := f }, zeroFrame, [.speedChangedMsg f], true⟩
    | none => ⟨st, zeroFrame, [.speedErrMsg], true⟩
  else
    match eng.synthesize text st.style st.lang st.total_steps st.speed with
    | none => errResult errWriteFails st [.errMsg]
    | some (wav, _dur) =>
      if (pcmBytes wav).length < 4294967296 then
        ⟨st, encodeFrame (pcmBytes wav), [.synthMsg], true⟩
      else errResult errWriteFails st [.synthMsg, .errMsg]

/-- Result of `text = sys.stdin.buffer.read(text_len).decode('utf-8')` and
what follows it: a decode error lands in the generic handler. -/
def afterRead (eng : Engine σ) (errWriteFails : Bool) (st : DaemonState σ)
    (decoded : Option PyStr) : StepResult σ :=
  match decoded with
  | none => errResult errWriteFails st [.errMsg]
  | some text => handleText eng errWriteFails st text

/-- One iteration of the daemon's `while True` loop: a short header read
breaks; a zero declared length is skipped with no response; a declared length
over 100000 is rejected with an empty frame before the payload is read;
otherwise exactly `declLen` payload bytes are read and decoded. -/
def step (eng : Engine σ) (errWriteFails : Bool) (st : DaemonState σ) :
    Inp → StepResult σ
  | .eofInput => ⟨st, [], [], false⟩
  | .frame n p =>
    if n = 0 then ⟨st, [], [], true⟩
    else if n > 100000 then ⟨st, zeroFrame, [.oversizeMsg n], true⟩
    else afterRead eng errWriteFails st (utf8Decode (p.take n))

/-- Request text matches one of the daemon's control commands. -/
def isCtl (t : PyStr) : Bool :=
  decide (t = pingText) || decide (t = quitText) || voiceCmd.isPrefixOf t ||
    langCmd.isPrefixOf t || speedCmd.isPrefixOf t

/-- Initial session state for the default command-line arguments
(`voice="M1"`, `lang="ko"`, `speed=1.05`, `total_steps=5`) with the style
resolved at startup. -/
def initState (sty : σ) : DaemonState σ :=
  ⟨[77, 49], [107, 111], 21 / 20, sty, 5⟩

/-- Concrete engine used to exercise the theorems: knows the voices `"M1"`
and `"F1"` and always synthesizes the two-sample waveform `[0, 1/2]`. -/
def testEngine : Engine ℕ where
  getVoiceStyle v := if v = [77, 49] ∨ v = [70, 49] then some 1 else none
  synthesize _ _ _ _ _ := some ([0, 1 / 2], 1)

/-- Concrete initial state used to exercise the theorems. -/
def st0 : DaemonState ℕ := initState 1

/-! ### Helper lemmas -/

lemma isPrefixOf_exists {l t : List ℕ} (h : l.isPrefixOf t = true) : ∃ r, t = l ++ r := by
  have h2 : l <+: t := by simpa using h
  obtain ⟨r, hr⟩ := h2
  exact ⟨r, hr.symm⟩

lemma step_frame_normal (eng : Engine σ) (w : Bool) (st : DaemonState σ) (n : ℕ) (p : PyStr)
    (h0 : 0 < n) (h1 : n ≤ 100000) :
    step eng w st (.frame n p) = afterRead eng w st (utf8Decode (p.take n)) := by
  simp only [step]
  rw [if_neg (by omega), if_neg (by omega)]

lemma not_ctl {t : PyStr} (h : isCtl t = false) :
    t ≠ pingText ∧ t ≠ quitText ∧ voiceCmd.isPrefixOf t = false ∧
      langCmd.isPrefixOf t = false ∧ speedCmd.isPrefixOf t = false := by
  simp [isCtl] at h
  exact ⟨h.1.1.1.1, h.1.1.1.2, h.1.1.2, h.1.2, h.2⟩

lemma handleText_ping (eng : Engine σ) (w : Bool) (st : DaemonState σ) :
    handleText eng w st pingText = ⟨st, pongBytes, [], true⟩ := rfl

lemma handleText_quit (eng : Engine σ) (w : Bool) (st : DaemonState σ) :
    handleText eng w st quitText = ⟨st, [], [.quitMsg], false⟩ := rfl

lemma handleText_voice_some (eng : Engine σ) (w : Bool) (st : DaemonState σ) (r : PyStr)
    (sty : σ) (hsty : eng.getVoiceStyle (pyStrip r) = some sty) :
    handleText eng w st (voiceCmd ++ r) =
      ⟨{ st with voice_name := pyStrip r, style := sty }, zeroFrame,
        [.voiceChangedMsg (pyStrip r)], true⟩ := by
  simp [handleText, voiceCmd, pingText, quitText, hsty]

lemma handleText_voice_none (eng : Engine σ) (w : Bool) (st : DaemonState σ) (r : PyStr)
    (hsty : eng.getVoiceStyle (pyStrip r) = none) :
    handleText eng w st (voiceCmd ++ r) = ⟨st, zeroFrame, [.voiceErrMsg], true⟩ := by
  simp [handleText, voiceCmd, pingText, quitText, hsty]

lemma handleText_lang (eng : Engine σ) (w : Bool) (st : DaemonState σ) (r : PyStr) :
    handleText eng w st (langCmd ++ r) =
      ⟨{ st with lang := pyStrip r }, zeroFrame, [.langChangedMsg (pyStrip r)], true⟩ := by
  simp [handleText, langCmd, pingText, quitText, voiceCmd, List.isPrefixOf]

lemma handleText_speed_some (eng : Engine σ) (w : Bool) (st : DaemonState σ) (r : PyStr)
    (f : ℚ) (hf : pyFloat (pyStrip r) = some f) :
    handleText eng w st (speedCmd ++ r) =
      ⟨{ st with speed := f }, zeroFrame, [.speedChangedMsg f], true⟩ := by
  simp [handleText, speedCmd, pingText, quitText, voiceCmd, langCmd, List.isPrefixOf, hf]

lemma handleText_speed_none (eng : Engine σ) (w : Bool) (st : DaemonState σ) (r : PyStr)
    (hf : pyFloat (pyStrip r) = none) :
    handleText eng w st (speedCmd ++ r) = ⟨st, zeroFrame, [.speedErrMsg], true⟩ := by
  simp [handleText, speedCmd, pingText, quitText, voiceCmd, langCmd, List.isPrefixOf, hf]

lemma handleText_not_ctl (eng : Engine σ) (w : Bool) (st : DaemonState σ) (t : PyStr)
    (h : isCtl t = false) :
    handleText eng w st t =
      match eng.synthesize t st.style st.lang st.total_steps st.speed with
      | none => errResult w st [.errMsg]
      | some (wav, _dur) =>
        if (pcmBytes wav).length < 4294967296 then
          ⟨st, encodeFrame (pcmBytes wav), [.synthMsg], true⟩
        else errResult w st [.synthMsg, .errMsg] := by
  obtain ⟨h1, h2, h3, h4, h5⟩ := not_ctl h
  rw [handleText, if_neg h1, if_neg h2, if_neg (by simp [h3]), if_neg (by simp [h4]),
    if_neg (by simp [h5])]

lemma handleText_synth_none (eng : Engine σ) (w : Bool) (st : DaemonState σ) (t : PyStr)
    (h : isCtl t = false)
    (hs : eng.synthesize t st.style st.lang st.total_steps st.speed = none) :
    handleText eng w st t = errResult w st [.errMsg] := by
  rw [handleText_not_ctl eng w st t h, hs]

lemma handleText_synth_fit (eng : Engine σ) (w : Bool) (st : DaemonState σ) (t : PyStr)
    (wav : List ℚ) (dur : ℚ) (h : isCtl t = false)
    (hs : eng.synthesize t st.style st.lang st.total_steps st.speed = some (wav, dur))
    (hl : (pcmBytes wav).length < 4294967296) :
    handleText eng w st t = ⟨st, encodeFrame (pcmBytes wav), [.synthMsg], true⟩ := by
  rw [handleText_not_ctl eng w st t h, hs]
  exact if_pos hl

lemma handleText_synth_big (eng : Engine σ) (w : Bool) (st : DaemonState σ) (t : PyStr)
    (wav : List ℚ) (dur : ℚ) (h : isCtl t = false)
    (hs : eng.synthesize t st.style st.lang st.total_steps st.speed = some (wav, dur))
    (hl : ¬ (pcmBytes wav).length < 4294967296) :
    handleText eng w st t = errResult w st [.synthMsg, .errMsg] := by
  rw [handleText_not_ctl eng w st t h, hs]
  exact if_neg hl

lemma pcmBytes_length (wav : List ℚ) : (pcmBytes wav).length = 2 * wav.length := by
  induction wav with
  | nil => rfl
  | cons s rest ih =>
    simp only [pcmBytes, int16le, List.length_append, List.length_cons, ih]
    simp
    omega

lemma pcm_slice (wav : List ℚ) (i : ℕ) (h : i < wav.length) :
    ((pcmBytes wav).drop (2 * i)).take 2 = int16le (toInt16 (wav.get ⟨i, h⟩)) := by
  induction wav generalizing i with
  | nil => simp at h
  | cons s rest ih =>
    cases i with
    | zero => simp [pcmBytes, int16le]
    | succ i =>
      have h' : i < rest.length := by simpa using Nat.lt_of_succ_lt_succ h
      rw [show 2 * (i + 1) = 2 * i + 1 + 1 by ring]
      simp only [pcmBytes, int16le, List.cons_append, List.drop_succ_cons, List.nil_append]
      simpa using ih i h'

lemma ratTrunc_bounds {x : ℚ} (h1 : -32767 ≤ x) (h2 : x ≤ 32767) :
    -32767 ≤ ratTrunc x ∧ ratTrunc x ≤ 32767 := by
  unfold ratTrunc
  split
  · rename_i h
    constructor
    · have := Int.floor_nonneg.mpr h
      omega
    · have h3 : (⌊x⌋ : ℚ) ≤ ((32767 : ℤ) : ℚ) := le_trans (Int.floor_le x) (by exact_mod_cast h2)
      exact_mod_cast h3
  · rename_i h
    constructor
    · have h3 : ((-32767 : ℤ) : ℚ) ≤ (⌈x⌉ : ℚ) := le_trans (by exact_mod_cast h1) (Int.le_ceil x)
      exact_mod_cast h3
    · have h4 : ⌈x⌉ ≤ (0 : ℤ) := Int.ceil_le.mpr (by push_cast; linarith)
      omega

lemma wrap16_id {n : ℤ} (h1 : -32768 ≤ n) (h2 : n ≤ 32767) : wrap16 n = n := by
  unfold wrap16
  omega

lemma toInt16_inrange {s : ℚ} (h1 : -1 ≤ s) (h2 : s ≤ 1) :
    toInt16 s = ratTrunc (s * 32767) ∧ -32768 ≤ toInt16 s ∧ toInt16 s ≤ 32767 := by
  have hb1 : -32767 ≤ s * 32767 := by nlinarith
  have hb2 : s * 32767 ≤ 32767 := by nlinarith
  have ht := ratTrunc_bounds hb1 hb2
  have hw : wrap16 (ratTrunc (s * 32767)) = ratTrunc (s * 32767) :=
    wrap16_id (by omega) (by omega)
  exact ⟨hw, by simp [toInt16, hw]; omega, by simp [toInt16, hw]; omega⟩

/-! ### Claims -/

/-- Claim C1: for every request whose declared length is in (0, 100000], whose
payload decodes as UTF-8, and which matches none of the control commands, the
daemon responds with one frame whose 4-byte little-endian declared length
equals the number of PCM payload bytes actually written, and that length is
even (a whole number of 16-bit samples). -/
theorem C1_synth_response_frame (eng : Engine σ) (st : DaemonState σ) (n : ℕ) (p t : PyStr)
    (h0 : 0 < n) (h1 : n ≤ 100000) (hdec : utf8Decode (p.take n) = some t)
    (hctl : isCtl t = false) :
    ∃ q : List ℕ, (step eng false st (.frame n p)).out = u32le q.length ++ q ∧
      q.length < 4294967296 ∧ q.length % 2 = 0 ∧
      (step eng false st (.frame n p)).cont = true := by
  have e := step_frame_normal eng false st n p h0 h1
  rw [hdec] at e
  simp only [afterRead] at e
  rcases hs : eng.synthesize t st.style st.lang st.total_steps st.speed with _ | ⟨wav, dur⟩
  · rw [handleText_synth_none eng false st t hctl hs] at e
    rw [e]
    exact ⟨[], by simp [errResult, zeroFrame, encodeFrame], by norm_num, by norm_num, rfl⟩
  · by_cases hl : (pcmBytes wav).length < 4294967296
    · rw [handleText_synth_fit eng false st t wav dur hctl hs hl] at e
      rw [e]
      exact ⟨pcmBytes wav, rfl, hl, by rw [pcmBytes_length]; omega, rfl⟩
    · rw [handleText_synth_big eng false st t wav dur hctl hs hl] at e
      rw [e]
      exact ⟨[], by simp [errResult, zeroFrame, encodeFrame], by norm_num, by norm_num, rfl⟩

theorem C1_witness :
    ∃ q : List ℕ,
      (step testEngine false st0 (Inp.frame 2 [104, 105])).out = u32le q.length ++ q ∧
      q.length < 4294967296 ∧ q.length % 2 = 0 ∧
      (step testEngine false st0 (Inp.frame 2 [104, 105])).cont = true :=
  C1_synth_response_frame testEngine st0 2 [104, 105] [104, 105]
    (by norm_num) (by norm_num) (by decide) (by decide)

/-- Claim C2: a zero declared length produces no response and the loop
immediately continues; a declared length over 100000 is policed before the
payload is touched (the result does not depend on the payload), logged, and
answered with exactly one empty frame `[0,0,0,0]`, after which the loop
continues. -/
theorem C2_length_policing (eng : Engine σ) (w : Bool) (st : DaemonState σ) (n : ℕ)
    (p : PyStr) :
    (n = 0 → step eng w st (.frame n p) = ⟨st, [], [], true⟩) ∧
    (100000 < n →
      (∀ p2, step eng w st (.frame n p) = step eng w st (.frame n p2)) ∧
      (step eng w st (.frame n p)).out = [0, 0, 0, 0] ∧
      (step eng w st (.frame n p)).logs = [.oversizeMsg n] ∧
      (step eng w st (.frame n p)).cont = true) := by
  constructor
  · intro h
    subst h
    simp [step]
  · intro h
    have e : step eng w st (.frame n p) = ⟨st, zeroFrame, [.oversizeMsg n], true⟩ := by
      simp only [step]
      rw [if_neg (by omega), if_pos (by omega)]
    refine ⟨fun p2 => ?_, by rw [e]; rfl, by rw [e], by rw [e]⟩
    have e2 : step eng w st (.frame n p2) = ⟨st, zeroFrame, [.oversizeMsg n], true⟩ := by
      simp only [step]
      rw [if_neg (by omega), if_pos (by omega)]
    rw [e, e2]

theorem C2_witness :
    step testEngine false st0 (Inp.frame 0 [1, 2, 3]) = ⟨st0, [], [], true⟩ ∧
    step testEngine false st0 (Inp.frame 100001 [1]) =
      step testEngine false st0 (Inp.frame 100001 [2, 3]) ∧
    (step testEngine false st0 (Inp.frame 100001 [1])).out = [0, 0, 0, 0] ∧
    (step testEngine false st0 (Inp.frame 100001 [1])).logs = [.oversizeMsg 100001] ∧
    (step testEngine false st0 (Inp.frame 100001 [1])).cont = true :=
  ⟨(C2_length_policing testEngine false st0 0 [1, 2, 3]).1 rfl,
    ((C2_length_policing testEngine false st0 100001 [1]).2 (by norm_num)).1 [2, 3],
    ((C2_length_policing testEngine false st0 100001 [1]).2 (by norm_num)).2.1,
    ((C2_length_policing testEngine false st0 100001 [1]).2 (by norm_num)).2.2.1,
    ((C2_length_policing testEngine false st0 100001 [1]).2 (by norm_num)).2.2.2⟩

/-- Claim C3: a decoded payload with prefix `VOICE:`, `LANG:` or `SPEED:`
always yields exactly one zero-length frame; the exact payload `PING` yields
exactly the raw bytes `PONG\n` with no length prefix, regardless of prior
session state; the exact payload `QUIT` yields no response bytes at all. -/
theorem C3_ctl_responses (eng : Engine σ) (w : Bool) (st : DaemonState σ) (n : ℕ) (p t : PyStr)
    (h0 : 0 < n) (h1 : n ≤ 100000) (hdec : utf8Decode (p.take n) = some t) :
    ((voiceCmd.isPrefixOf t || langCmd.isPrefixOf t || speedCmd.isPrefixOf t) = true →
      (step eng w st (.frame n p)).out = [0, 0, 0, 0] ∧
      (step eng w st (.frame n p)).cont = true) ∧
    (t = pingText →
      (step eng w st (.frame n p)).out = pongBytes ∧
      (step eng w st (.frame n p)).state = st ∧
      (step eng w st (.frame n p)).cont = true) ∧
    (t = quitText →
      (step eng w st (.frame n p)).out = [] ∧
      (step eng w st (.frame n p)).cont = false) := by
  have e := step_frame_normal eng w st n p h0 h1
  rw [hdec] at e
  simp only [afterRead] at e
  refine ⟨?_, ?_, ?_⟩
  · intro h
    rw [Bool.or_eq_true, Bool.or_eq_true] at h
    rcases h with (hv | hl) | hs
    · obtain ⟨r, hr⟩ := isPrefixOf_exists hv
      subst hr
      rw [e]
      cases hsty : eng.getVoiceStyle (pyStrip r) with
      | some sty => rw [handleText_voice_some eng w st r sty hsty]; exact ⟨rfl, rfl⟩
      | none => rw [handleText_voice_none eng w st r hsty]; exact ⟨rfl, rfl⟩
    · obtain ⟨r, hr⟩ := isPrefixOf_exists hl
      subst hr
      rw [e, handleText_lang]
      exact ⟨rfl, rfl⟩
    · obtain ⟨r, hr⟩ := isPrefixOf_exists hs
      subst hr
      rw [e]
      cases hf : pyFloat (pyStrip r) with
      | some f => rw [handleText_speed_some eng w st r f hf]; exact ⟨rfl, rfl⟩
      | none => rw [handleText_speed_none eng w st r hf]; exact ⟨rfl, rfl⟩
  · intro h
    subst h
    rw [e, handleText_ping]
    exact ⟨rfl, rfl, rfl⟩
  · intro h
    subst h
    rw [e, handleText_quit]
    exact ⟨rfl, rfl⟩

theorem C3_witness :
    ((step testEngine false st0 (Inp.frame 8 [86, 79, 73, 67, 69, 58, 70, 49])).out =
        [0, 0, 0, 0] ∧
      (step testEngine false st0 (Inp.frame 8 [86, 79, 73, 67, 69, 58, 70, 49])).cont = true) ∧
    ((step testEngine false st0 (Inp.frame 4 [80, 73, 78, 71])).out = pongBytes ∧
      (step testEngine false st0 (Inp.frame 4 [80, 73, 78, 71])).state = st0 ∧
      (step testEngine false st0 (Inp.frame 4 [80, 73, 78, 71])).cont = true) ∧
    ((step testEngine false st0 (Inp.frame 4 [81, 85, 73, 84])).out = [] ∧
      (step testEngine false st0 (Inp.frame 4 [81, 85, 73, 84])).cont = false) :=
  ⟨(C3_ctl_responses testEngine false st0 8 [86, 79, 73, 67, 69, 58, 70, 49]
      [86, 79, 73, 67, 69, 58, 70, 49] (by norm_num) (by norm_num) (by decide)).1 (by decide),
    (C3_ctl_responses testEngine false st0 4 [80, 73, 78, 71] pingText
      (by norm_num) (by norm_num) (by decide)).2.1 rfl,
    (C3_ctl_responses testEngine false st0 4 [81, 85, 73, 84] quitText
      (by norm_num) (by norm_num) (by decide)).2.2 rfl⟩

/-- Claim C4: a payload that fails UTF-8 decoding, or an exception from the
synthesis engine during a synthesis request, is logged, answered with exactly
one empty frame, leaves the session state unchanged, and the loop
continues. -/
theorem C4_error_containment (eng : Engine σ) (st : DaemonState σ) (n : ℕ) (p : PyStr)
    (h0 : 0 < n) (h1 : n ≤ 100000)
    (herr : utf8Decode (p.take n) = none ∨
      ∃ t, utf8Decode (p.take n) = some t ∧ isCtl t = false ∧
        eng.synthesize t st.style st.lang st.total_steps st.speed = none) :
    (step eng false st (.frame n p)).out = [0, 0, 0, 0] ∧
    (step eng false st (.frame n p)).logs = [.errMsg] ∧
    (step eng false st (.frame n p)).cont = true ∧
    (step eng false st (.frame n p)).state = st := by
  have e := step_frame_normal eng false st n p h0 h1
  rcases herr with hnone | ⟨t, hsome, hctl, hsyn⟩
  · rw [hnone] at e
    simp only [afterRead] at e
    rw [e]
    exact ⟨rfl, rfl, rfl, rfl⟩
  · rw [hsome] at e
    simp only [afterRead] at e
    rw [handleText_not_ctl eng false st t hctl, hsyn] at e
    rw [e]
    exact ⟨rfl, rfl, rfl, rfl⟩

theorem C4_witness :
    (step testEngine false st0 (Inp.frame 1 [255])).out = [0, 0, 0, 0] ∧
    (step testEngine false st0 (Inp.frame 1 [255])).logs = [.errMsg] ∧
    (step testEngine false st0 (Inp.frame 1 [255])).cont = true ∧
    (step testEngine false st0 (Inp.frame 1 [255])).state = st0 :=
  C4_error_containment testEngine st0 1 [255] (by norm_num) (by norm_num)
    (Or.inl (by decide))

/-- Claim C5: a `VOICE:` command whose style resolution fails leaves voice and
cached style unchanged, and a `SPEED:` command whose remainder does not parse
leaves the speed unchanged; both failures still acknowledge with the
zero-length frame, and on success the corresponding fields are updated (voice
and style together). -/
theorem C5_cmd_atomicity (eng : Engine σ) (w : Bool) (st : DaemonState σ) (n : ℕ) (p t : PyStr)
    (h0 : 0 < n) (h1 : n ≤ 100000) (hdec : utf8Decode (p.take n) = some t) :
    (∀ r, t = voiceCmd ++ r →
      (eng.getVoiceStyle (pyStrip r) = none →
        (step eng w st (.frame n p)).state = st ∧
        (step eng w st (.frame n p)).out = [0, 0, 0, 0]) ∧
      (∀ sty, eng.getVoiceStyle (pyStrip r) = some sty →
        (step eng w st (.frame n p)).state =
          { st with voice_name := pyStrip r, style := sty } ∧
        (step eng w st (.frame n p)).out = [0, 0, 0, 0])) ∧
    (∀ r, t = speedCmd ++ r →
      (pyFloat (pyStrip r) = none →
        (step eng w st (.frame n p)).state = st ∧
        (step eng w st (.frame n p)).out = [0, 0, 0, 0]) ∧
      (∀ f, pyFloat (pyStrip r) = some f →
        (step eng w st (.frame n p)).state = { st with speed := f } ∧
        (step eng w st (.frame n p)).out = [0, 0, 0, 0])) := by
  have e := step_frame_normal eng w st n p h0 h1
  rw [hdec] at e
  simp only [afterRead] at e
  constructor
  · intro r hr
    subst hr
    constructor
    · intro hsty
      rw [e, handleText_voice_none eng w st r hsty]
      exact ⟨rfl, rfl⟩
    · intro sty hsty
      rw [e, handleText_voice_some eng w st r sty hsty]
      exact ⟨rfl, rfl⟩
  · intro r hr
    subst hr
    constructor
    · intro hf
      rw [e, handleText_speed_none eng w st r hf]
      exact ⟨rfl, rfl⟩
    · intro f hf
      rw [e, handleText_speed_some eng w st r f hf]
      exact ⟨rfl, rfl⟩

theorem C5_witness :
    ((step testEngine false st0 (Inp.frame 8 [86, 79, 73, 67, 69, 58, 88, 50])).state = st0 ∧
      (step testEngine false st0 (Inp.frame 8 [86, 79, 73, 67, 69, 58, 88, 50])).out =
        [0, 0, 0, 0]) ∧
    ((step testEngine false st0 (Inp.frame 8 [86, 79, 73, 67, 69, 58, 70, 49])).state =
        { st0 with voice_name := pyStrip [70, 49], style := 1 } ∧
      (step testEngine false st0 (Inp.frame 8 [86, 79, 73, 67, 69, 58, 70, 49])).out =
        [0, 0, 0, 0]) ∧
    ((step testEngine false st0
        (Inp.frame 11 [83, 80, 69, 69, 68, 58, 104, 101, 108, 108, 111])).state = st0 ∧
      (step testEngine false st0
        (Inp.frame 11 [83, 80, 69, 69, 68, 58, 104, 101, 108, 108, 111])).out =
        [0, 0, 0, 0]) :=
  ⟨((C5_cmd_atomicity testEngine false st0 8 [86, 79, 73, 67, 69, 58, 88, 50]
        (voiceCmd ++ [88, 50]) (by norm_num) (by norm_num) (by decide)).1
      [88, 50] rfl).1 (by decide),
    ((C5_cmd_atomicity testEngine false st0 8 [86, 79, 73, 67, 69, 58, 70, 49]
        (voiceCmd ++ [70, 49]) (by norm_num) (by norm_num) (by decide)).1
      [70, 49] rfl).2 1 (by decide),
    ((C5_cmd_atomicity testEngine false st0 11 [83, 80, 69, 69, 68, 58, 104, 101, 108, 108, 111]
        (speedCmd ++ [104, 101, 108, 108, 111]) (by norm_num) (by norm_num) (by decide)).2
      [104, 101, 108, 108, 111] rfl).1 (by decide)⟩

/-- Claim C6: each waveform sample is converted to int16 PCM by scaling by
32767 and truncating, in order (the bytes at positions 2i, 2i+1 are the
little-endian encoding of the converted i-th sample); samples in [-1, 1] map
to an in-range int16 without wraparound, while out-of-range samples are not
clamped and can wrap (sample 2 scales to 65534 and wraps to -2). -/
theorem C6_pcm_conversion (wav : List ℚ) :
    (pcmBytes wav).length = 2 * wav.length ∧
    (∀ i (h : i < wav.length),
      ((pcmBytes wav).drop (2 * i)).take 2 = int16le (toInt16 (wav.get ⟨i, h⟩))) ∧
    (∀ s : ℚ, -1 ≤ s → s ≤ 1 →
      toInt16 s = ratTrunc (s * 32767) ∧ -32768 ≤ toInt16 s ∧ toInt16 s ≤ 32767) ∧
    toInt16 2 = -2 := by
  refine ⟨pcmBytes_length wav, fun i h => pcm_slice wav i h,
    fun s hs1 hs2 => toInt16_inrange hs1 hs2, ?_⟩
  have h1 : ((2 : ℚ) * 32767) = ((65534 : ℤ) : ℚ) := by norm_num
  have h2 : ratTrunc ((2 : ℚ) * 32767) = 65534 := by
    rw [ratTrunc, if_pos (by norm_num), h1, Int.floor_intCast]
  rw [toInt16, h2]
  decide

theorem C6_witness :
    ((pcmBytes [(0 : ℚ), 2]).drop (2 * 0)).take 2 =
      int16le (toInt16 (([(0 : ℚ), 2]).get ⟨0, by norm_num⟩)) ∧
    (toInt16 0 = ratTrunc ((0 : ℚ) * 32767) ∧ -32768 ≤ toInt16 0 ∧ toInt16 0 ≤ 32767) ∧
    toInt16 2 = -2 :=
  ⟨(C6_pcm_conversion [(0 : ℚ), 2]).2.1 0 (by norm_num),
    (C6_pcm_conversion []).2.2.1 0 (by norm_num) (by norm_num),
    (C6_pcm_conversion []).2.2.2⟩

/-- Claim C7 counterexample: the daemon's speed is positive at startup with
the default arguments, yet processing the command `SPEED:-1` (declared
length 8, payload bytes of `"SPEED:-1"`) drives it negative: the code parses
the remainder with `float(...)` and stores it without any positivity
check. -/
theorem C7_counterexample :
    0 < st0.speed ∧
    (step testEngine false st0 (Inp.frame 8 [83, 80, 69, 69, 68, 58, 45, 49])).state.speed
      < 0 := by
  constructor
  · norm_num [st0, initState]
  · have e := step_frame_normal testEngine false st0 8 [83, 80, 69, 69, 68, 58, 45, 49]
      (by norm_num) (by norm_num)
    have hdec : utf8Decode ([83, 80, 69, 69, 68, 58, 45, 49].take 8) =
        some (speedCmd ++ [45, 49]) := by decide
    rw [hdec] at e
    simp only [afterRead] at e
    have hf : pyFloat (pyStrip [45, 49]) = some (-1) := by
      norm_num [pyFloat, pyFloatCore, pyStrip, isPySpace, digitsVal, allDigits]
    rw [handleText_speed_some testEngine false st0 [45, 49] (-1) hf] at e
    rw [e]
    norm_num

/-- Claim C7 (amended): the speed is positive after startup with the default
arguments, and no processed input changes it except an accepted `SPEED:`
command, which sets it to whatever rational the remainder parses to —
including zero or a negative value. -/
theorem C7_speed_evolution (sty : σ) (eng : Engine σ) (w : Bool) (st : DaemonState σ)
    (inp : Inp) :
    0 < (initState sty).speed ∧
    ((step eng w st inp).state.speed = st.speed ∨
      ∃ n p t f, inp = Inp.frame n p ∧ utf8Decode (p.take n) = some t ∧
        speedCmd.isPrefixOf t = true ∧ pyFloat (pyStrip (t.drop 6)) = some f ∧
        (step eng w st inp).state.speed = f) := by
  constructor
  · norm_num [initState]
  · cases inp with
    | eofInput => exact Or.inl rfl
    | frame n p =>
      by_cases h0 : n = 0
      · subst h0
        left
        simp [step]
      · by_cases h1 : n ≤ 100000
        · have e := step_frame_normal eng w st n p (by omega) h1
          cases hdec : utf8Decode (p.take n) with
          | none =>
            left
            rw [hdec] at e
            simp only [afterRead] at e
            rw [e]
            unfold errResult
            split <;> rfl
          | some t =>
            rw [hdec] at e
            simp only [afterRead] at e
            by_cases hp : t = pingText
            · left
              subst hp
              rw [e, handleText_ping]
            · by_cases hq : t = quitText
              · left
                subst hq
                rw [e, handleText_quit]
              · cases hv : voiceCmd.isPrefixOf t with
                | true =>
                  obtain ⟨r, hr⟩ := isPrefixOf_exists hv
                  subst hr
                  left
                  rw [e]
                  cases hsty : eng.getVoiceStyle (pyStrip r) with
                  | some sty2 => rw [handleText_voice_some eng w st r sty2 hsty]
                  | none => rw [handleText_voice_none eng w st r hsty]
                | false =>
                  cases hl : langCmd.isPrefixOf t with
                  | true =>
                    obtain ⟨r, hr⟩ := isPrefixOf_exists hl
                    subst hr
                    left
                    rw [e, handleText_lang]
                  | false =>
                    cases hs : speedCmd.isPrefixOf t with
                    | true =>
                      obtain ⟨r, hr⟩ := isPrefixOf_exists hs
                      subst hr
                      cases hf : pyFloat (pyStrip r) with
                      | none =>
                        left
                        rw [e, handleText_speed_none eng w st r hf]
                      | some f =>
                        right
                        refine ⟨n, p, speedCmd ++ r, f, rfl, hdec, by simp, ?_, ?_⟩
                        · simpa [speedCmd] using hf
                        · rw [e, handleText_speed_some eng w st r f hf]
                    | false =>
                      left
                      have hctl : isCtl t = false := by
                        simp [isCtl, hp, hq, hv, hl, hs]
                      cases hsyn : eng.synthesize t st.style st.lang st.total_steps st.speed with
                      | none =>
                        rw [e, handleText_synth_none eng w st t hctl hsyn]
                        unfold errResult
                        split <;> rfl
                      | some pr =>
                        obtain ⟨wav, dur⟩ := pr
                        by_cases hlen : (pcmBytes wav).length < 4294967296
                        · rw [e, handleText_synth_fit eng w st t wav dur hctl hsyn hlen]
                        · rw [e, handleText_synth_big eng w st t wav dur hctl hsyn hlen]
                          unfold errResult
                          split <;> rfl
        · left
          have e : step eng w st (.frame n p) = ⟨st, zeroFrame, [.oversizeMsg n], true⟩ := by
            simp only [step]
            rw [if_neg h0, if_pos (by omega)]
          rw [e]

/-- Full branch analysis of one frame iteration: the loop body breaks exactly
on a `QUIT` request or on a failing error-handler write, and whenever it
breaks nothing was written to stdout in that iteration. -/
lemma step_frame_cont (eng : Engine σ) (w : Bool) (st : DaemonState σ) (n : ℕ) (p : PyStr) :
    ((step eng w st (.frame n p)).cont = false ↔
      (0 < n ∧ n ≤ 100000 ∧ utf8Decode (p.take n) = some quitText) ∨
      (w = true ∧ LogEvent.errMsg ∈ (step eng w st (.frame n p)).logs)) ∧
    ((step eng w st (.frame n p)).cont = false → (step eng w st (.frame n p)).out = []) := by
  by_cases h0 : n = 0
  · subst h0
    have e : step eng w st (.frame 0 p) = ⟨st, [], [], true⟩ := by simp [step]
    rw [e]
    simp
  · by_cases h1 : n ≤ 100000
    · have e := step_frame_normal eng w st n p (by omega) h1
      cases hdec : utf8Decode (p.take n) with
      | none =>
        rw [hdec] at e
        simp only [afterRead] at e
        rw [e]
        unfold errResult
        cases w with
        | true => simp [hdec]
        | false => simp [hdec]
      | some t =>
        rw [hdec] at e
        simp only [afterRead] at e
        by_cases hp : t = pingText
        · subst hp
          rw [e, handleText_ping]
          simp [hdec, pingText, quitText]
        · by_cases hq : t = quitText
          · subst hq
            rw [e, handleText_quit]
            simp [hdec]
            omega
          · cases hv : voiceCmd.isPrefixOf t with
            | true =>
              obtain ⟨r, hr⟩ := isPrefixOf_exists hv
              subst hr
              rw [e]
              have hne : ¬ (voiceCmd ++ r = quitText) := by simp [voiceCmd, quitText]
              cases hsty : eng.getVoiceStyle (pyStrip r) with
              | some sty2 =>
                rw [handleText_voice_some eng w st r sty2 hsty]
                simp [hdec, hne]
              | none =>
                rw [handleText_voice_none eng w st r hsty]
                simp [hdec, hne]
            | false =>
              cases hl : langCmd.isPrefixOf t with
              | true =>
                obtain ⟨r, hr⟩ := isPrefixOf_exists hl
                subst hr
                rw [e, handleText_lang]
                have hne : ¬ (langCmd ++ r = quitText) := by simp [langCmd, quitText]
                simp [hdec, hne]
              | false =>
                cases hs : speedCmd.isPrefixOf t with
                | true =>
                  obtain ⟨r, hr⟩ := isPrefixOf_exists hs
                  subst hr
                  rw [e]
                  have hne : ¬ (speedCmd ++ r = quitText) := by simp [speedCmd, quitText]
                  cases hf : pyFloat (pyStrip r) with
                  | some f =>
                    rw [handleText_speed_some eng w st r f hf]
                    simp [hdec, hne]
                  | none =>
                    rw [handleText_speed_none eng w st r hf]
                    simp [hdec, hne]
                | false =>
                  have hctl : isCtl t = false := by
                    simp [isCtl, hp, hq, hv, hl, hs]
                  cases hsyn : eng.synthesize t st.style st.lang st.total_steps st.speed with
                  | none =>
                    rw [e, handleText_synth_none eng w st t hctl hsyn]
                    unfold errResult
                    cases w with
                    | true => simp [hdec, hq]
                    | false => simp [hdec, hq]
                  | some pr =>
                    obtain ⟨wav, dur⟩ := pr
                    by_cases hlen : (pcmBytes wav).length < 4294967296
                    · rw [e, handleText_synth_fit eng w st t wav dur hctl hsyn hlen]
                      simp [hdec, hq]
                    · rw [e, handleText_synth_big eng w st t wav dur hctl hsyn hlen]
                      unfold errResult
                      cases w with
                      | true => simp [hdec, hq]
                      | false => simp [hdec, hq]
    · have e : step eng w st (.frame n p) = ⟨st, zeroFrame, [.oversizeMsg n], true⟩ := by
        simp only [step]
        rw [if_neg h0, if_pos (by omega)]
      rw [e]
      simp
      omega

/-- Claim C8: with a working output stream, the loop breaks with nothing
written exactly on end-of-stream (a short header read) or after a decoded
`QUIT` payload; every other processed request returns to reading the next
header. -/
theorem C8_loop_termination (eng : Engine σ) (st : DaemonState σ) (inp : Inp) :
    ((step eng false st inp).cont = false ↔
      inp = Inp.eofInput ∨ ∃ n p, inp = Inp.frame n p ∧ 0 < n ∧ n ≤ 100000 ∧
        utf8Decode (p.take n) = some quitText) ∧
    ((step eng false st inp).cont = false → (step eng false st inp).out = []) := by
  cases inp with
  | eofInput =>
    exact ⟨⟨fun _ => Or.inl rfl, fun _ => rfl⟩, fun _ => rfl⟩
  | frame n p =>
    obtain ⟨h1, h2⟩ := step_frame_cont eng false st n p
    refine ⟨?_, h2⟩
    rw [h1]
    constructor
    · rintro (⟨ha, hb, hc⟩ | ⟨hw, _⟩)
      · exact Or.inr ⟨n, p, rfl, ha, hb, hc⟩
      · cases hw
    · rintro (h | ⟨n2, p2, heq, ha, hb, hc⟩)
      · exact absurd h (by simp)
      · injection heq with e1 e2
        subst e1
        subst e2
        exact Or.inl ⟨ha, hb, hc⟩

theorem C8_witness :
    (step testEngine false st0 (Inp.frame 4 [81, 85, 73, 84])).cont = false ∧
    (step testEngine false st0 (Inp.frame 4 [81, 85, 73, 84])).out = [] := by
  obtain ⟨h1, h2⟩ := C8_loop_termination testEngine st0 (Inp.frame 4 [81, 85, 73, 84])
  have hc : (step testEngine false st0 (Inp.frame 4 [81, 85, 73, 84])).cont = false :=
    h1.mpr (Or.inr ⟨4, [81, 85, 73, 84], rfl, by norm_num, by norm_num, by decide⟩)
  exact ⟨hc, h2 hc⟩

/-- Claim C9 counterexample: for the request `"LANG: en"` the text remaining
after the `LANG:` prefix is `" en"`, but the session's language becomes
`"en"` — the code strips surrounding whitespace, so the language is not the
raw remaining text. -/
theorem C9_counterexample :
    (step testEngine false st0
      (Inp.frame 8 [76, 65, 78, 71, 58, 32, 101, 110])).state.lang = [101, 110] ∧
    ([76, 65, 78, 71, 58, 32, 101, 110] : PyStr).drop 5 = [32, 101, 110] ∧
    ([101, 110] : PyStr) ≠ [32, 101, 110] := by
  refine ⟨?_, by decide, by decide⟩
  have e := step_frame_normal testEngine false st0 8 [76, 65, 78, 71, 58, 32, 101, 110]
    (by norm_num) (by norm_num)
  have hdec : utf8Decode ([76, 65, 78, 71, 58, 32, 101, 110].take 8) =
      some (langCmd ++ [32, 101, 110]) := by decide
  rw [hdec] at e
  simp only [afterRead] at e
  rw [e, handleText_lang]
  decide

/-- Claim C9 (amended): for every request whose decoded text has prefix
`LANG:`, the session's language code becomes the remaining text with leading
and trailing whitespace stripped, unconditionally and with no validation of
the result, and a zero-length acknowledgment is sent. -/
theorem C9_lang_unconditional (eng : Engine σ) (w : Bool) (st : DaemonState σ) (n : ℕ)
    (p r : PyStr) (h0 : 0 < n) (h1 : n ≤ 100000)
    (hdec : utf8Decode (p.take n) = some (langCmd ++ r)) :
    (step eng w st (.frame n p)).state = { st with lang := pyStrip r } ∧
    (step eng w st (.frame n p)).out = [0, 0, 0, 0] ∧
    (step eng w st (.frame n p)).cont = true := by
  have e := step_frame_normal eng w st n p h0 h1
  rw [hdec] at e
  simp only [afterRead] at e
  rw [e, handleText_lang]
  exact ⟨rfl, rfl, rfl⟩

theorem C9_witness :
    (step testEngine false st0 (Inp.frame 7 [76, 65, 78, 71, 58, 101, 110])).state =
      { st0 with lang := pyStrip [101, 110] } ∧
    (step testEngine false st0 (Inp.frame 7 [76, 65, 78, 71, 58, 101, 110])).out =
      [0, 0, 0, 0] ∧
    (step testEngine false st0 (Inp.frame 7 [76, 65, 78, 71, 58, 101, 110])).cont = true :=
  C9_lang_unconditional testEngine false st0 7 [76, 65, 78, 71, 58, 101, 110] [101, 110]
    (by norm_num) (by norm_num) (by decide)

/-- Claim C10: for a frame, the loop breaks exactly when the request was
`QUIT` or when a per-request error occurred (the error handler ran, marked by
its diagnostic line) and the handler's write of the empty error-response
frame itself raised; in that failure case nothing is written to stdout, so a
failing error write is the only in-loop error that ends the daemon. -/
theorem C10_error_write_failure (eng : Engine σ) (st : DaemonState σ) (n : ℕ) (p : PyStr)
    (w : Bool) :
    ((step eng w st (.frame n p)).cont = false ↔
      (0 < n ∧ n ≤ 100000 ∧ utf8Decode (p.take n) = some quitText) ∨
      (w = true ∧ LogEvent.errMsg ∈ (step eng w st (.frame n p)).logs)) ∧
    (w = true → LogEvent.errMsg ∈ (step eng w st (.frame n p)).logs →
      (step eng w st (.frame n p)).out = []) := by
  obtain ⟨h1, h2⟩ := step_frame_cont eng w st n p
  exact ⟨h1, fun hw hm => h2 (h1.mpr (Or.inr ⟨hw, hm⟩))⟩

theorem C10_witness :
    (step testEngine true st0 (Inp.frame 1 [255])).cont = false ∧
    (step testEngine true st0 (Inp.frame 1 [255])).out = [] := by
  obtain ⟨h1, h2⟩ := C10_error_write_failure testEngine st0 1 [255] true
  have hm : LogEvent.errMsg ∈ (step testEngine true st0 (Inp.frame 1 [255])).logs := by
    decide
  exact ⟨h1.mpr (Or.inr ⟨rfl, hm⟩), h2 rfl hm⟩

end Supertonic
